import Mathlib

/-!
Verification of the state-graph execution engine underlying the four
langgraph example programs (`state-graph.py`, `multi-agent.py`,
`supervisor-worker-pattern.py`, `customer-support-bot.py`).

The execution engine itself (graph compilation, state merging, routing,
iteration guard) lives in the third-party `langgraph` library and is not
part of this repository's sources; it is modelled here from the
specification (sections 3-4 and 6-7).  The node step functions, reducers,
routing predicates and graph wiring of the four example programs are
translated directly from the repository's source files.  Calls to the
hosted text-generation service are opaque external collaborators; each
step function that performs one is parameterised by the response content
it receives (an oracle argument).
-/

/-! ## The engine, modelled from the spec -/

/-- Modelled from the spec: an edge is either a static edge `{from, to}` or a
conditional edge `{from, predicate, table}` (spec section 3, "Edge"). -/
inductive EdgeSpec (σ : Type) where
  | static (target : String)
  | conditional (pred : σ → String) (table : List (String × String))

/-- Modelled from the spec: the compiled Runnable Graph - node table, edge
table, reducer registry (here: the `applyUpdate` function that merges one
partial update of type `υ` into a state of type `σ`), and the start node id
(spec section 3, "Runnable Graph"). -/
structure Graph (σ υ : Type) where
  nodes : List (String × (σ → υ))
  edges : List (String × EdgeSpec σ)
  applyUpdate : σ → υ → σ
  start : String

/-- Modelled from the spec: the outcome of one `invoke` call (spec sections
4.3, 4.4 and 7): normal completion at the terminal marker, abort by the
Iteration Guard (`IterationLimitExceeded`), abort by the Router
(`RoutingError`, naming the unresolved key and the offending node), or a
malformed-graph abort.  Each outcome carries the execution path and the
iteration count. -/
inductive RunResult (σ : Type) where
  | finished (final : σ) (path : List String) (count : Nat)
  | limitExceeded (last : σ) (path : List String) (count : Nat)
  | routingFailed (key : String) (node : String) (last : σ) (path : List String) (count : Nat)
  | missingNode (node : String) (path : List String) (count : Nat)
deriving DecidableEq

/-- The terminal marker (spec glossary, "Start/Terminal Marker"). -/
def ENDMARK : String := "END"

/-- Look up a node's step function in the node table. -/
def findNode {σ υ : Type} (g : Graph σ υ) (n : String) : Option (σ → υ) :=
  (g.nodes.find? (fun p => p.1 == n)).map (fun p => p.2)

/-- Look up a node's outgoing edge in the edge table. -/
def findEdge {σ υ : Type} (g : Graph σ υ) (n : String) : Option (EdgeSpec σ) :=
  (g.edges.find? (fun p => p.1 == n)).map (fun p => p.2)

/-- Look up a routing key in a conditional edge's routing table. -/
def lookupTable (t : List (String × String)) (k : String) : Option String :=
  (t.find? (fun p => p.1 == k)).map (fun p => p.2)

/-- Modelled from the spec: the Execution Engine loop (spec section 4.3) with
the Iteration Guard (spec section 4.4).  One loop iteration executes the
current node's step function, merges its partial update, appends the node to
the path and increments the iteration count; the guard aborts with
`limitExceeded` when the count reaches the configured maximum (here: when
`fuel`, the number of further iterations the guard still allows, is
exhausted); otherwise the Router resolves the next node - a static edge is
followed directly, a conditional edge evaluates its predicate against the
post-merge snapshot and resolves the key through the table, falling back to
the `"default"` key and failing with `routingFailed` when neither resolves. -/
def runAux {σ υ : Type} (g : Graph σ υ) : Nat → String → σ → List String → Nat → RunResult σ
  | fuel, cur, s, path, count =>
    match findNode g cur with
    | none => .missingNode cur path count
    | some step =>
      let s' := g.applyUpdate s (step s)
      let path' := path ++ [cur]
      let count' := count + 1
      match fuel with
      | 0 => .limitExceeded s' path' count'
      | fuel' + 1 =>
        match findEdge g cur with
        | none => .missingNode cur path' count'
        | some (.static t) =>
          if t == ENDMARK then .finished s' path' count'
          else runAux g fuel' t s' path' count'
        | some (.conditional pred table) =>
          let k := pred s'
          match lookupTable table k with
          | some t =>
            if t == ENDMARK then .finished s' path' count'
            else runAux g fuel' t s' path' count'
          | none =>
            match lookupTable table "default" with
            | some t =>
              if t == ENDMARK then .finished s' path' count'
              else runAux g fuel' t s' path' count'
            | none => .routingFailed k cur s' path' count'

/-- Modelled from the spec: `invoke(graph, initialState, {maxSteps})` seeds a
fresh State Store and Iteration Guard and drives the engine from the start
node (spec sections 4.3 and 6).  `maxSteps` is the Iteration Guard bound:
the run aborts with `limitExceeded` at the `maxSteps`-th node execution if
the terminal marker has not been reached by then. -/
def invoke {σ υ : Type} (g : Graph σ υ) (maxSteps : Nat) (init : σ) : RunResult σ :=
  match maxSteps with
  | 0 => .limitExceeded init [] 0
  | n + 1 => runAux g n g.start init [] 0

/-- The execution path recorded in a run outcome. -/
def RunResult.pathOf {σ : Type} : RunResult σ → List String
  | .finished _ p _ => p
  | .limitExceeded _ p _ => p
  | .routingFailed _ _ _ p _ => p
  | .missingNode _ p _ => p

/-- The iteration count recorded in a run outcome. -/
def RunResult.countOf {σ : Type} : RunResult σ → Nat
  | .finished _ _ c => c
  | .limitExceeded _ _ c => c
  | .routingFailed _ _ _ _ c => c
  | .missingNode _ _ c => c

/-- Whether a run completed normally at the terminal marker. -/
def RunResult.isFinished {σ : Type} : RunResult σ → Bool
  | .finished _ _ _ => true
  | _ => false

/-- The execution path of a run that completed normally, `none` otherwise. -/
def RunResult.finishedPath {σ : Type} : RunResult σ → Option (List String)
  | .finished _ p _ => some p
  | _ => none

/-! ## Reducers

The per-field merge functions declared by the example programs'
`Annotated` state schemas. -/

/-- The default reducer: the incoming value overwrites the old one
(`state-graph.py`, `current_step`; spec section 3, "Reducer Entry"). -/
def replaceReducer {α : Type} (_old incoming : α) : α := incoming

/-- The `operator.add` reducer on lists: `history: Annotated[list[str],
operator.add]` in `state-graph.py` line 22 (list concatenation). -/
def addListReducer (old incoming : List String) : List String := old ++ incoming

/-- The `operator.add` reducer on integers: `total: Annotated[int,
operator.add]` in `state-graph.py` line 25. -/
def addIntReducer (old incoming : Int) : Int := old + incoming

/-- The shallow-merge reducer `lambda x, y: {**x, **y}` used for
`worker_results` in `supervisor-worker-pattern.py` line 34 and for
`worker_outputs` in `customer-support-bot.py` line 39.  Dictionaries are
modelled extensionally as `String → Option String`: a key of the incoming
dictionary takes the incoming value, every other key keeps the old one. -/
def dictMerge (x y : String → Option String) : String → Option String :=
  fun k => match y k with
  | some v => some v
  | none => x k

/-- A one-entry dictionary, as produced by a worker's partial update such as
`{"researcher": response.content}`. -/
def singletonDict (name val : String) : String → Option String :=
  fun k => if k == name then some val else none

/-- Python's `str.lower()` (ASCII case folding, which covers every string the
programs compare). -/
def pyLower (s : String) : String := String.mk (s.data.map Char.toLower)

/-- Python's `str.strip()`: remove leading and trailing whitespace. -/
def pyStrip (s : String) : String :=
  String.mk (((s.data.dropWhile Char.isWhitespace).reverse.dropWhile Char.isWhitespace).reverse)

@[simp] lemma pyLower_researcher : pyLower "researcher" = "researcher" := rfl

@[simp] lemma pyLower_coder : pyLower "coder" = "coder" := rfl

@[simp] lemma pyLower_writer : pyLower "writer" = "writer" := rfl

@[simp] lemma pyLower_finish : pyLower "finish" = "finish" := rfl

@[simp] lemma pyLower_FINISH : pyLower "FINISH" = "finish" := rfl

/-! ## `state-graph.py`: the linear accumulating graph -/

/-- `CounterState` from `state-graph.py` lines 17-25. -/
structure CounterState where
  current_step : String
  history : List String
  total : Int
deriving DecidableEq

/-- A partial update to `CounterState`: each field is optionally present. -/
structure CounterUpdate where
  current_step : Option String := none
  history : Option (List String) := none
  total : Option Int := none

/-- The reducer registry of `CounterState`: `current_step` is replaced,
`history` and `total` accumulate with `operator.add`. -/
def counterApply (s : CounterState) (u : CounterUpdate) : CounterState :=
  { current_step := match u.current_step with
      | some v => replaceReducer s.current_step v
      | none => s.current_step
    history := match u.history with
      | some v => addListReducer s.history v
      | none => s.history
    total := match u.total with
      | some v => addIntReducer s.total v
      | none => s.total }

/-- `step_one` from `state-graph.py` lines 28-34. -/
def step_one (_s : CounterState) : CounterUpdate :=
  { current_step := some "one"
    history := some ["Completed step 1"]
    total := some 10 }

/-- `step_two` from `state-graph.py` lines 37-43. -/
def step_two (_s : CounterState) : CounterUpdate :=
  { current_step := some "two"
    history := some ["Completed step 2"]
    total := some 20 }

/-- `step_three` from `state-graph.py` lines 46-52. -/
def step_three (_s : CounterState) : CounterUpdate :=
  { current_step := some "three"
    history := some ["Completed step 3"]
    total := some 30 }

/-- The graph wiring of `state-graph.py` lines 56-67: START → step_one →
step_two → step_three → END, all static edges. -/
def counterGraph : Graph CounterState CounterUpdate :=
  { nodes := [("step_one", step_one), ("step_two", step_two), ("step_three", step_three)]
    edges := [("step_one", .static "step_two"),
              ("step_two", .static "step_three"),
              ("step_three", .static ENDMARK)]
    applyUpdate := counterApply
    start := "step_one" }

/-- The initial state of `state-graph.py` lines 71-75:
`{current_step: "start", history: [], total: 0}`. -/
def initCounter : CounterState :=
  { current_step := "start", history := [], total := 0 }

/-! ## `multi-agent.py`: the linear researcher → analyst → writer pipeline -/

/-- `MultiAgentState` from `multi-agent.py` lines 22-28.  `messages`
accumulates with `operator.add`; every other field is replaced. -/
structure MultiAgentState where
  user_query : String
  messages : List String
  research_result : String
  analysis_result : String
  final_response : String
  current_agent : String
deriving DecidableEq

/-- A partial update to `MultiAgentState`. -/
structure MultiAgentUpdate where
  user_query : Option String := none
  messages : Option (List String) := none
  research_result : Option String := none
  analysis_result : Option String := none
  final_response : Option String := none
  current_agent : Option String := none

/-- The reducer registry of `MultiAgentState`. -/
def multiAgentApply (s : MultiAgentState) (u : MultiAgentUpdate) : MultiAgentState :=
  { user_query := match u.user_query with
      | some v => replaceReducer s.user_query v
      | none => s.user_query
    messages := match u.messages with
      | some v => addListReducer s.messages v
      | none => s.messages
    research_result := match u.research_result with
      | some v => replaceReducer s.research_result v
      | none => s.research_result
    analysis_result := match u.analysis_result with
      | some v => replaceReducer s.analysis_result v
      | none => s.analysis_result
    final_response := match u.final_response with
      | some v => replaceReducer s.final_response v
      | none => s.final_response
    current_agent := match u.current_agent with
      | some v => replaceReducer s.current_agent v
      | none => s.current_agent }

/-- `researcher_agent` from `multi-agent.py` lines 42-61; `resp` is the
content of the text-generation response. -/
def researcher_agent (resp : String) (_s : MultiAgentState) : MultiAgentUpdate :=
  { research_result := some resp
    current_agent := some "researcher"
    messages := some ["[Researcher]: " ++ resp] }

/-- `analyst_agent` from `multi-agent.py` lines 64-90. -/
def analyst_agent (resp : String) (_s : MultiAgentState) : MultiAgentUpdate :=
  { analysis_result := some resp
    current_agent := some "analyst"
    messages := some ["[Analyst]: " ++ resp] }

/-- `writer_agent` from `multi-agent.py` lines 93-122. -/
def writer_agent (resp : String) (_s : MultiAgentState) : MultiAgentUpdate :=
  { final_response := some resp
    current_agent := some "writer"
    messages := some ["[Writer]: " ++ resp] }

/-- The graph wiring of `multi-agent.py` lines 129-143: START → researcher →
analyst → writer → END, all static edges. -/
def multiAgentGraph (r a w : String) : Graph MultiAgentState MultiAgentUpdate :=
  { nodes := [("researcher", researcher_agent r),
              ("analyst", analyst_agent a),
              ("writer", writer_agent w)]
    edges := [("researcher", .static "analyst"),
              ("analyst", .static "writer"),
              ("writer", .static ENDMARK)]
    applyUpdate := multiAgentApply
    start := "researcher" }

/-- The initial state of `multi-agent.py` lines 177-184. -/
def initMulti (query : String) : MultiAgentState :=
  { user_query := query, messages := [], research_result := ""
    analysis_result := "", final_response := "", current_agent := "" }

/-! ## `supervisor-worker-pattern.py`: the cyclic supervisor-worker graph -/

namespace SupWorker

/-- `SupervisorState` from `supervisor-worker-pattern.py` lines 23-40.
`messages` accumulates with `operator.add`, `worker_results` merges
shallowly, the rest is replaced. -/
structure SupervisorState where
  task : String
  messages : List String
  next_worker : String
  worker_results : String → Option String
  final_answer : String
  iteration : Int

/-- A partial update to `SupervisorState`. -/
structure SupervisorUpdate where
  task : Option String := none
  messages : Option (List String) := none
  next_worker : Option String := none
  worker_results : Option (String → Option String) := none
  final_answer : Option String := none
  iteration : Option Int := none

/-- The reducer registry of `SupervisorState`. -/
def supervisorApply (s : SupervisorState) (u : SupervisorUpdate) : SupervisorState :=
  { task := match u.task with
      | some v => replaceReducer s.task v
      | none => s.task
    messages := match u.messages with
      | some v => addListReducer s.messages v
      | none => s.messages
    next_worker := match u.next_worker with
      | some v => replaceReducer s.next_worker v
      | none => s.next_worker
    worker_results := match u.worker_results with
      | some v => dictMerge s.worker_results v
      | none => s.worker_results
    final_answer := match u.final_answer with
      | some v => replaceReducer s.final_answer v
      | none => s.final_answer
    iteration := match u.iteration with
      | some v => replaceReducer s.iteration v
      | none => s.iteration }

/-- `WORKERS` from `supervisor-worker-pattern.py` line 54. -/
def WORKERS : List String := ["researcher", "coder", "writer"]

/-- `researcher_worker` from `supervisor-worker-pattern.py` lines 57-80;
`oracle` gives the content of the text-generation response as a function of
the snapshot the worker was handed. -/
def researcher_worker (oracle : SupervisorState → String) (s : SupervisorState) :
    SupervisorUpdate :=
  { worker_results := some (singletonDict "researcher" (oracle s))
    messages := some ["[Researcher]: " ++ oracle s] }

/-- `coder_worker` from `supervisor-worker-pattern.py` lines 83-106. -/
def coder_worker (oracle : SupervisorState → String) (s : SupervisorState) :
    SupervisorUpdate :=
  { worker_results := some (singletonDict "coder" (oracle s))
    messages := some ["[Coder]: " ++ oracle s] }

/-- `writer_worker` from `supervisor-worker-pattern.py` lines 109-132. -/
def writer_worker (oracle : SupervisorState → String) (s : SupervisorState) :
    SupervisorUpdate :=
  { worker_results := some (singletonDict "writer" (oracle s))
    messages := some ["[Writer]: " ++ oracle s] }

/-- `supervisor_node` from `supervisor-worker-pattern.py` lines 139-193.
If the application-level iteration counter has reached 5 the node decides
`"FINISH"` without consulting the text-generation service; otherwise the
response content (`oracle s`) is stripped and lowercased, any value that is
neither a worker name nor `"finish"` is replaced by `"finish"`, and the
decision is stored in `next_worker` with the counter incremented. -/
def supervisor_node (oracle : SupervisorState → String) (s : SupervisorState) :
    SupervisorUpdate :=
  let current_iteration := s.iteration
  if current_iteration ≥ 5 then
    { next_worker := some "FINISH"
      iteration := some (current_iteration + 1) }
  else
    let raw := pyLower (pyStrip (oracle s))
    let next_action := if ¬ WORKERS.contains raw ∧ raw ≠ "finish" then "finish" else raw
    { next_worker := some (pyLower next_action)
      iteration := some (current_iteration + 1)
      messages := some ["[Supervisor]: Next action -> " ++ next_action] }

/-- `route_supervisor` from `supervisor-worker-pattern.py` lines 200-211. -/
def route_supervisor (s : SupervisorState) : String :=
  let next_worker := pyLower s.next_worker
  if next_worker == "researcher" then "researcher"
  else if next_worker == "coder" then "coder"
  else if next_worker == "writer" then "writer"
  else "finish"

/-- `compile_final_answer` from `supervisor-worker-pattern.py` lines 218-237. -/
def compile_final_answer (oracle : SupervisorState → String) (s : SupervisorState) :
    SupervisorUpdate :=
  { final_answer := some (oracle s) }

/-- The graph wiring of `supervisor-worker-pattern.py` lines 273-306:
START → supervisor; supervisor routes conditionally to the three workers or
to the finish node; every worker loops back to supervisor; finish → END. -/
def supGraph (supO resO codO wriO finO : SupervisorState → String) :
    Graph SupervisorState SupervisorUpdate :=
  { nodes := [("supervisor", supervisor_node supO),
              ("researcher", researcher_worker resO),
              ("coder", coder_worker codO),
              ("writer", writer_worker wriO),
              ("finish", compile_final_answer finO)]
    edges := [("supervisor", .conditional route_supervisor
                 [("researcher", "researcher"), ("coder", "coder"),
                  ("writer", "writer"), ("finish", "finish")]),
              ("researcher", .static "supervisor"),
              ("coder", .static "supervisor"),
              ("writer", .static "supervisor"),
              ("finish", .static ENDMARK)]
    applyUpdate := supervisorApply
    start := "supervisor" }

/-- The initial state of `supervisor-worker-pattern.py` lines 325-332. -/
def initSup (task : String) : SupervisorState :=
  { task := task, messages := [], next_worker := ""
    worker_results := fun _ => none, final_answer := "", iteration := 0 }

end SupWorker

/-! ## `customer-support-bot.py`: the customer-support graph -/

namespace Support

/-- `SupportState` from `customer-support-bot.py` lines 28-48.  `messages`
accumulates with `operator.add`, `worker_outputs` merges shallowly, the rest
is replaced. -/
structure SupportState where
  customer_message : String
  customer_id : String
  intent : String
  priority : String
  messages : List String
  worker_outputs : String → Option String
  next_action : String
  iteration : Int
  response : String
  needs_human : Bool
  ticket_created : Bool

/-- A partial update to `SupportState`. -/
structure SupportUpdate where
  customer_message : Option String := none
  customer_id : Option String := none
  intent : Option String := none
  priority : Option String := none
  messages : Option (List String) := none
  worker_outputs : Option (String → Option String) := none
  next_action : Option String := none
  iteration : Option Int := none
  response : Option String := none
  needs_human : Option Bool := none
  ticket_created : Option Bool := none

/-- The reducer registry of `SupportState`. -/
def supportApply (s : SupportState) (u : SupportUpdate) : SupportState :=
  { customer_message := match u.customer_message with
      | some v => replaceReducer s.customer_message v
      | none => s.customer_message
    customer_id := match u.customer_id with
      | some v => replaceReducer s.customer_id v
      | none => s.customer_id
    intent := match u.intent with
      | some v => replaceReducer s.intent v
      | none => s.intent
    priority := match u.priority with
      | some v => replaceReducer s.priority v
      | none => s.priority
    messages := match u.messages with
      | some v => addListReducer s.messages v
      | none => s.messages
    worker_outputs := match u.worker_outputs with
      | some v => dictMerge s.worker_outputs v
      | none => s.worker_outputs
    next_action := match u.next_action with
      | some v => replaceReducer s.next_action v
      | none => s.next_action
    iteration := match u.iteration with
      | some v => replaceReducer s.iteration v
      | none => s.iteration
    response := match u.response with
      | some v => replaceReducer s.response v
      | none => s.response
    needs_human := match u.needs_human with
      | some v => replaceReducer s.needs_human v
      | none => s.needs_human
    ticket_created := match u.ticket_created with
      | some v => replaceReducer s.ticket_created v
      | none => s.ticket_created }

/-- `classify_intent` from `customer-support-bot.py` lines 62-102.  The
classification itself is performed by the external text-generation service;
`intentO` and `priorityO` are the values extracted from its response (the
JSON-parse-failure fallback `intent = "general", priority = "medium"` is one
possible instantiation). -/
def classify_intent (intentO priorityO : String) (_s : SupportState) : SupportUpdate :=
  { intent := some intentO
    priority := some priorityO
    messages := some ["Classified as " ++ intentO ++ " (" ++ priorityO ++ " priority)"] }

/-- `billing_worker` from `customer-support-bot.py` lines 109-131. -/
def billing_worker (resp : String) (_s : SupportState) : SupportUpdate :=
  { worker_outputs := some (singletonDict "billing" resp)
    messages := some ["[Billing]: " ++ resp] }

/-- `technical_worker` from `customer-support-bot.py` lines 134-155. -/
def technical_worker (resp : String) (_s : SupportState) : SupportUpdate :=
  { worker_outputs := some (singletonDict "technical" resp)
    messages := some ["[Technical]: " ++ resp] }

/-- `account_worker` from `customer-support-bot.py` lines 158-180. -/
def account_worker (resp : String) (_s : SupportState) : SupportUpdate :=
  { worker_outputs := some (singletonDict "account" resp)
    messages := some ["[Account]: " ++ resp] }

/-- `general_worker` from `customer-support-bot.py` lines 183-200. -/
def general_worker (resp : String) (_s : SupportState) : SupportUpdate :=
  { worker_outputs := some (singletonDict "general" resp)
    messages := some ["[General]: " ++ resp] }

/-- `supervisor` from `customer-support-bot.py` lines 207-254: iteration 0
routes on the classified intent, iteration 1 adds a quality check exactly
when the priority is `"high"`, any later iteration finalizes. -/
def supervisor (s : SupportState) : SupportUpdate :=
  let iteration := s.iteration
  if iteration = 0 then
    let intent := s.intent
    let next_action :=
      if intent = "billing" then "billing_worker"
      else if intent = "technical" then "technical_worker"
      else if intent = "account" then "account_worker"
      else "general_worker"
    { next_action := some next_action
      iteration := some (iteration + 1) }
  else if iteration = 1 then
    if s.priority = "high" then
      { next_action := some "quality_check"
        iteration := some (iteration + 1) }
    else
      { next_action := some "finalize"
        iteration := some (iteration + 1) }
  else
    { next_action := some "finalize"
      iteration := some (iteration + 1) }

/-- `route_supervisor` from `customer-support-bot.py` lines 257-259. -/
def route_supervisor (s : SupportState) : String := s.next_action

/-- `quality_check` from `customer-support-bot.py` lines 266-307.  The
review is performed by the external service; `outcome` is the parsed JSON of
its response (`none` models a parse failure).  A non-empty
`improved_response` is stored under `"quality_improved"`; otherwise only
`needs_human := false` is recorded. -/
def quality_check (outcome : Option (Bool × String)) (_s : SupportState) : SupportUpdate :=
  match outcome with
  | some (nh, improved) =>
    if improved ≠ "" then
      { worker_outputs := some (singletonDict "quality_improved" improved)
        needs_human := some nh
        messages := some ["Quality check completed"] }
    else
      { needs_human := some false
        messages := some ["Quality check completed"] }
  | none =>
    { needs_human := some false
      messages := some ["Quality check completed"] }

/-- `finalize_response` from `customer-support-bot.py` lines 314-347: the
final text comes from the external service (`resp`); a ticket is created
exactly when the priority is `"high"`. -/
def finalize_response (resp : String) (s : SupportState) : SupportUpdate :=
  { response := some resp
    ticket_created := some (s.priority = "high") }

/-- The edge table of `customer-support-bot.py` lines 404-429: classify →
supervisor; supervisor routes conditionally; each worker and the quality
check loop back to supervisor; finalize → END. -/
def supportEdges : List (String × EdgeSpec SupportState) :=
  [("classify", .static "supervisor"),
   ("supervisor", .conditional route_supervisor
      [("billing_worker", "billing_worker"), ("technical_worker", "technical_worker"),
       ("account_worker", "account_worker"), ("general_worker", "general_worker"),
       ("quality_check", "quality_check"), ("finalize", "finalize")]),
   ("billing_worker", .static "supervisor"),
   ("technical_worker", .static "supervisor"),
   ("account_worker", .static "supervisor"),
   ("general_worker", .static "supervisor"),
   ("quality_check", .static "supervisor"),
   ("finalize", .static ENDMARK)]

/-- The graph wiring of `customer-support-bot.py` lines 391-432. -/
def supportGraph (intentO priorityO billR techR acctR genR : String)
    (qcO : Option (Bool × String)) (finR : String) :
    Graph SupportState SupportUpdate :=
  { nodes := [("classify", classify_intent intentO priorityO),
              ("supervisor", supervisor),
              ("billing_worker", billing_worker billR),
              ("technical_worker", technical_worker techR),
              ("account_worker", account_worker acctR),
              ("general_worker", general_worker genR),
              ("quality_check", quality_check qcO),
              ("finalize", finalize_response finR)]
    edges := supportEdges
    applyUpdate := supportApply
    start := "classify" }

/-- The initial state of `customer-support-bot.py` lines 461-473. -/
def initSupport (msg cid : String) : SupportState :=
  { customer_message := msg, customer_id := cid, intent := "", priority := ""
    messages := [], worker_outputs := fun _ => none, next_action := ""
    iteration := 0, response := "", needs_human := false, ticket_created := false }

/-- The worker the supervisor selects on iteration 0 for a given intent
(`customer-support-bot.py` lines 214-224). -/
def workerFor (intent : String) : String :=
  if intent = "billing" then "billing_worker"
  else if intent = "technical" then "technical_worker"
  else if intent = "account" then "account_worker"
  else "general_worker"

end Support

/-! ## Lemmas about the supervisor-worker graph -/

namespace SupWorker

lemma sup_apply_iteration (supO : SupervisorState → String) (s : SupervisorState) :
    (supervisorApply s (supervisor_node supO s)).iteration = s.iteration + 1 := by
  by_cases h : s.iteration ≥ 5 <;>
    simp [supervisor_node, supervisorApply, replaceReducer, h]

lemma worker_apply_iteration (t : SupervisorState) (u : SupervisorUpdate)
    (hu : u.iteration = none) : (supervisorApply t u).iteration = t.iteration := by
  simp [supervisorApply, hu]

lemma cycle_res (supO resO codO wriO finO : SupervisorState → String)
    (s : SupervisorState) (path : List String) (count : Nat) (f : Nat)
    (hne : ¬ s.iteration ≥ 5)
    (hr : pyLower (pyStrip (supO s)) = "researcher") :
    runAux (supGraph supO resO codO wriO finO) (f + 2) "supervisor" s path count =
    runAux (supGraph supO resO codO wriO finO) f "supervisor"
      (supervisorApply (supervisorApply s (supervisor_node supO s))
        (researcher_worker resO (supervisorApply s (supervisor_node supO s))))
      (path ++ ["supervisor", "researcher"]) (count + 2) := by
  conv_lhs => rw [runAux]
  rw [show f + 2 = (f + 1) + 1 from rfl]
  simp [supGraph, findNode, findEdge, lookupTable, List.find?, route_supervisor,
    supervisor_node, supervisorApply, researcher_worker, replaceReducer, WORKERS, ENDMARK,
    hr, if_neg hne]
  conv_lhs => rw [runAux]
  simp [supGraph, findNode, findEdge, lookupTable, List.find?, route_supervisor,
    supervisor_node, supervisorApply, researcher_worker, replaceReducer, WORKERS, ENDMARK]

lemma cycle_cod (supO resO codO wriO finO : SupervisorState → String)
    (s : SupervisorState) (path : List String) (count : Nat) (f : Nat)
    (hne : ¬ s.iteration ≥ 5)
    (hr : pyLower (pyStrip (supO s)) = "coder") :
    runAux (supGraph supO resO codO wriO finO) (f + 2) "supervisor" s path count =
    runAux (supGraph supO resO codO wriO finO) f "supervisor"
      (supervisorApply (supervisorApply s (supervisor_node supO s))
        (coder_worker codO (supervisorApply s (supervisor_node supO s))))
      (path ++ ["supervisor", "coder"]) (count + 2) := by
  conv_lhs => rw [runAux]
  rw [show f + 2 = (f + 1) + 1 from rfl]
  simp [supGraph, findNode, findEdge, lookupTable, List.find?, route_supervisor,
    supervisor_node, supervisorApply, coder_worker, replaceReducer, WORKERS, ENDMARK,
    hr, if_neg hne]
  conv_lhs => rw [runAux]
  simp [supGraph, findNode, findEdge, lookupTable, List.find?, route_supervisor,
    supervisor_node, supervisorApply, coder_worker, replaceReducer, WORKERS, ENDMARK]

lemma cycle_wri (supO resO codO wriO finO : SupervisorState → String)
    (s : SupervisorState) (path : List String) (count : Nat) (f : Nat)
    (hne : ¬ s.iteration ≥ 5)
    (hr : pyLower (pyStrip (supO s)) = "writer") :
    runAux (supGraph supO resO codO wriO finO) (f + 2) "supervisor" s path count =
    runAux (supGraph supO resO codO wriO finO) f "supervisor"
      (supervisorApply (supervisorApply s (supervisor_node supO s))
        (writer_worker wriO (supervisorApply s (supervisor_node supO s))))
      (path ++ ["supervisor", "writer"]) (count + 2) := by
  conv_lhs => rw [runAux]
  rw [show f + 2 = (f + 1) + 1 from rfl]
  simp [supGraph, findNode, findEdge, lookupTable, List.find?, route_supervisor,
    supervisor_node, supervisorApply, writer_worker, replaceReducer, WORKERS, ENDMARK,
    hr, if_neg hne]
  conv_lhs => rw [runAux]
  simp [supGraph, findNode, findEdge, lookupTable, List.find?, route_supervisor,
    supervisor_node, supervisorApply, writer_worker, replaceReducer, WORKERS, ENDMARK]

/-- As long as the supervisor's decision is always a worker, the engine loop
between the supervisor and the workers never leaves the cycle, and the
Iteration Guard aborts the run after consuming all of its fuel: with `fuel`
further iterations allowed after the current one, the run performs exactly
`fuel + 1` more node executions and ends in `limitExceeded`. -/
lemma sup_guard_loop (supO resO codO wriO finO : SupervisorState → String)
    (hw : ∀ s, pyLower (pyStrip (supO s)) ∈ WORKERS) :
    ∀ fuel : Nat, ∀ s : SupervisorState, ∀ path : List String, ∀ count : Nat,
    2 * s.iteration + (fuel : Int) ≤ 8 →
    ∃ s' rest, runAux (supGraph supO resO codO wriO finO) fuel "supervisor" s path count
        = .limitExceeded s' (path ++ rest) (count + rest.length) ∧ rest.length = fuel + 1 := by
  intro fuel
  induction fuel using Nat.strong_induction_on with
  | _ fuel ih =>
    match fuel with
    | 0 =>
      intro s path count _h
      refine ⟨supervisorApply s (supervisor_node supO s), ["supervisor"], ?_, rfl⟩
      conv_lhs => rw [runAux]
      simp [supGraph, findNode, List.find?]
    | 1 =>
      intro s path count h
      have hne : ¬ s.iteration ≥ 5 := by omega
      have hmem := hw s
      simp only [WORKERS, List.mem_cons, List.not_mem_nil, or_false] at hmem
      rcases hmem with hr | hr | hr
      · refine ⟨supervisorApply (supervisorApply s (supervisor_node supO s))
          (researcher_worker resO (supervisorApply s (supervisor_node supO s))),
          ["supervisor", "researcher"], ?_, rfl⟩
        conv_lhs => rw [runAux]
        simp [supGraph, findNode, findEdge, lookupTable, List.find?, route_supervisor,
          supervisor_node, supervisorApply, researcher_worker, replaceReducer, WORKERS,
          ENDMARK, hr, if_neg hne]
        conv_lhs => rw [runAux]
        simp [supGraph, findNode, List.find?, researcher_worker, supervisorApply, supervisor_node,
          replaceReducer, hr, if_neg hne]
      · refine ⟨supervisorApply (supervisorApply s (supervisor_node supO s))
          (coder_worker codO (supervisorApply s (supervisor_node supO s))),
          ["supervisor", "coder"], ?_, rfl⟩
        conv_lhs => rw [runAux]
        simp [supGraph, findNode, findEdge, lookupTable, List.find?, route_supervisor,
          supervisor_node, supervisorApply, coder_worker, replaceReducer, WORKERS,
          ENDMARK, hr, if_neg hne]
        conv_lhs => rw [runAux]
        simp [supGraph, findNode, List.find?, coder_worker, supervisorApply, supervisor_node,
          replaceReducer, hr, if_neg hne]
      · refine ⟨supervisorApply (supervisorApply s (supervisor_node supO s))
          (writer_worker wriO (supervisorApply s (supervisor_node supO s))),
          ["supervisor", "writer"], ?_, rfl⟩
        conv_lhs => rw [runAux]
        simp [supGraph, findNode, findEdge, lookupTable, List.find?, route_supervisor,
          supervisor_node, supervisorApply, writer_worker, replaceReducer, WORKERS,
          ENDMARK, hr, if_neg hne]
        conv_lhs => rw [runAux]
        simp [supGraph, findNode, List.find?, writer_worker, supervisorApply, supervisor_node,
          replaceReducer, hr, if_neg hne]
    | (f + 2) =>
      intro s path count h
      have hne : ¬ s.iteration ≥ 5 := by omega
      have hmem := hw s
      simp only [WORKERS, List.mem_cons, List.not_mem_nil, or_false] at hmem
      rcases hmem with hr | hr | hr
      · rw [cycle_res supO resO codO wriO finO s path count f hne hr]
        obtain ⟨s', rest', heq, hlen⟩ := ih f (by omega)
          (supervisorApply (supervisorApply s (supervisor_node supO s))
            (researcher_worker resO (supervisorApply s (supervisor_node supO s))))
          (path ++ ["supervisor", "researcher"]) (count + 2)
          (by
            rw [worker_apply_iteration _ _ (by simp [researcher_worker]),
              sup_apply_iteration]
            omega)
        refine ⟨s', "supervisor" :: "researcher" :: rest', ?_, ?_⟩
        · rw [heq]
          congr 1
          · simp
          · simp
            try omega
        · simp [hlen]
          try omega
      · rw [cycle_cod supO resO codO wriO finO s path count f hne hr]
        obtain ⟨s', rest', heq, hlen⟩ := ih f (by omega)
          (supervisorApply (supervisorApply s (supervisor_node supO s))
            (coder_worker codO (supervisorApply s (supervisor_node supO s))))
          (path ++ ["supervisor", "coder"]) (count + 2)
          (by
            rw [worker_apply_iteration _ _ (by simp [coder_worker]),
              sup_apply_iteration]
            omega)
        refine ⟨s', "supervisor" :: "coder" :: rest', ?_, ?_⟩
        · rw [heq]
          congr 1
          · simp
          · simp
            try omega
        · simp [hlen]
          try omega
      · rw [cycle_wri supO resO codO wriO finO s path count f hne hr]
        obtain ⟨s', rest', heq, hlen⟩ := ih f (by omega)
          (supervisorApply (supervisorApply s (supervisor_node supO s))
            (writer_worker wriO (supervisorApply s (supervisor_node supO s))))
          (path ++ ["supervisor", "writer"]) (count + 2)
          (by
            rw [worker_apply_iteration _ _ (by simp [writer_worker]),
              sup_apply_iteration]
            omega)
        refine ⟨s', "supervisor" :: "writer" :: rest', ?_, ?_⟩
        · rw [heq]
          congr 1
          · simp
          · simp
            try omega
        · simp [hlen]
          try omega

end SupWorker

/-! ## Lemmas about the customer-support graph -/

namespace Support

lemma quality_check_iteration (qcO : Option (Bool × String)) (s : SupportState) :
    (quality_check qcO s).iteration = none := by
  rcases qcO with _ | ⟨nh, imp⟩ <;> simp [quality_check, apply_ite SupportUpdate.iteration]

lemma quality_check_priority (qcO : Option (Bool × String)) (s : SupportState) :
    (quality_check qcO s).priority = none := by
  rcases qcO with _ | ⟨nh, imp⟩ <;> simp [quality_check, apply_ite SupportUpdate.priority]

lemma quality_check_intent (qcO : Option (Bool × String)) (s : SupportState) :
    (quality_check qcO s).intent = none := by
  rcases qcO with _ | ⟨nh, imp⟩ <;> simp [quality_check, apply_ite SupportUpdate.intent]

lemma quality_check_next_action (qcO : Option (Bool × String)) (s : SupportState) :
    (quality_check qcO s).next_action = none := by
  rcases qcO with _ | ⟨nh, imp⟩ <;> simp [quality_check, apply_ite SupportUpdate.next_action]

/-- The complete execution path of the customer-support graph, for every
classification outcome and every worker output: the run always completes
normally, visiting the quality check exactly when the classified priority is
`"high"`.  The bound 25 is the engine's default Iteration Guard limit. -/
lemma supportRun_finishedPath (intentO priorityO billR techR acctR genR finR msg cid : String)
    (qcO : Option (Bool × String)) :
    (invoke (supportGraph intentO priorityO billR techR acctR genR qcO finR) 25
      (initSupport msg cid)).finishedPath =
    some (if priorityO = "high" then
      ["classify", "supervisor", workerFor intentO, "supervisor", "quality_check",
       "supervisor", "finalize"]
    else ["classify", "supervisor", workerFor intentO, "supervisor", "finalize"]) := by
  by_cases hb : intentO = "billing" <;>
    by_cases ht : intentO = "technical" <;>
      by_cases ha : intentO = "account" <;>
        by_cases hp : priorityO = "high" <;>
          simp [invoke, runAux, supportGraph, supportEdges, findNode, findEdge, lookupTable,
            List.find?, supportApply, classify_intent, supervisor, route_supervisor,
            billing_worker, technical_worker, account_worker, general_worker,
            finalize_response, initSupport, replaceReducer, ENDMARK, RunResult.finishedPath,
            workerFor, quality_check_iteration, quality_check_priority, quality_check_intent,
            quality_check_next_action, hb, ht, ha, hp]

lemma workerFor_mem (intent : String) :
    workerFor intent ∈ ["billing_worker", "technical_worker", "account_worker",
      "general_worker"] := by
  unfold workerFor
  split_ifs <;> simp

end Support

lemma finishedPath_eq {σ : Type} (r : RunResult σ) (p : List String)
    (h : r.finishedPath = some p) : r.pathOf = p ∧ r.isFinished = true := by
  cases r <;> simp [RunResult.finishedPath, RunResult.pathOf, RunResult.isFinished] at h ⊢
  exact h

/-! ## Static routes -/

/-- The route obtained by following only static edges from a node until the
terminal marker, within `fuel` steps (the static analysis the spec's
compiler performs to check that the terminal marker is reachable, spec
section 4.1). -/
def staticRoute {σ υ : Type} (g : Graph σ υ) : Nat → String → Option (List String)
  | 0, _ => none
  | fuel + 1, cur =>
    if cur == ENDMARK then some []
    else match findEdge g cur with
      | some (.static t) => (staticRoute g fuel t).map (fun r => cur :: r)
      | _ => none

lemma staticRoute_unique {σ υ : Type} (g : Graph σ υ) :
    ∀ f f' c r r', staticRoute g f c = some r → staticRoute g f' c = some r' → r = r' := by
  intro f
  induction f with
  | zero => intro f' c r r' h; simp [staticRoute] at h
  | succ f ih =>
    intro f' c r r' h h'
    cases f' with
    | zero => simp [staticRoute] at h'
    | succ f' =>
      rw [staticRoute] at h h'
      by_cases hc : (c == ENDMARK) = true
      · rw [if_pos hc] at h h'
        cases h; cases h'; rfl
      · rw [if_neg hc] at h h'
        cases he : findEdge g c with
        | none => rw [he] at h; simp at h
        | some e =>
          rw [he] at h h'
          cases e with
          | conditional p t => simp at h
          | static t =>
            simp only [Option.map_eq_some'] at h h'
            obtain ⟨r0, hr0, rfl⟩ := h
            obtain ⟨r0', hr0', rfl⟩ := h'
            rw [ih f' t r0 r0' hr0 hr0']

lemma staticRoute_mem {σ υ : Type} (g : Graph σ υ) :
    ∀ f c r, staticRoute g f c = some r → ∀ x ∈ r,
      ∃ f' r', staticRoute g f' x = some r' ∧ r'.length ≤ r.length := by
  intro f
  induction f with
  | zero => intro c r h; simp [staticRoute] at h
  | succ f ih =>
    intro c r h x hx
    rw [staticRoute] at h
    by_cases hc : (c == ENDMARK) = true
    · rw [if_pos hc] at h; cases h; simp at hx
    · rw [if_neg hc] at h
      cases he : findEdge g c with
      | none => rw [he] at h; simp at h
      | some e =>
        rw [he] at h
        cases e with
        | conditional p t => simp at h
        | static t =>
          simp only [Option.map_eq_some'] at h
          obtain ⟨r0, hr0, rfl⟩ := h
          rcases List.mem_cons.mp hx with rfl | hx0
          · exact ⟨f + 1, x :: r0, by rw [staticRoute, if_neg hc, he]; simp [hr0], le_refl _⟩
          · obtain ⟨f', r', hr', hlen⟩ := ih t r0 hr0 x hx0
            exact ⟨f', r', hr', le_trans hlen (by simp)⟩

/-- A static route never revisits a node: the successor of each node is
unique, so a repeated node would make the terminal marker unreachable. -/
lemma staticRoute_nodup {σ υ : Type} (g : Graph σ υ) :
    ∀ f c r, staticRoute g f c = some r → r.Nodup := by
  intro f
  induction f with
  | zero => intro c r h; simp [staticRoute] at h
  | succ f ih =>
    intro c r h
    have hfull := h
    rw [staticRoute] at h
    by_cases hc : (c == ENDMARK) = true
    · rw [if_pos hc] at h; cases h; exact List.nodup_nil
    · rw [if_neg hc] at h
      cases he : findEdge g c with
      | none => rw [he] at h; simp at h
      | some e =>
        rw [he] at h
        cases e with
        | conditional p t => simp at h
        | static t =>
          simp only [Option.map_eq_some'] at h
          obtain ⟨r0, hr0, rfl⟩ := h
          refine List.nodup_cons.mpr ⟨?_, ih t r0 hr0⟩
          intro hcmem
          obtain ⟨f', r', hr', hlen⟩ := staticRoute_mem g f t r0 hr0 c hcmem
          have := staticRoute_unique g f' (f + 1) c r' (c :: r0) hr' hfull
          subst this
          simp at hlen

/-- Executing the engine along an established static route reaches the
terminal marker with exactly that route as the path, provided the Iteration
Guard allows at least as many executions as the route is long. -/
lemma staticRoute_run {σ υ : Type} (g : Graph σ υ) :
    ∀ f c r, staticRoute g f c = some r → c ≠ ENDMARK →
    (∀ x ∈ r, (findNode g x).isSome) →
    ∀ fuel s path count, r.length ≤ fuel →
    ∃ s', runAux g fuel c s path count = .finished s' (path ++ r) (count + r.length) := by
  intro f
  induction f with
  | zero => intro c r h; simp [staticRoute] at h
  | succ f ih =>
    intro c r h hcne hnodes fuel s path count hfuel
    rw [staticRoute] at h
    rw [if_neg (by simpa using hcne)] at h
    cases he : findEdge g c with
    | none => rw [he] at h; simp at h
    | some e =>
      rw [he] at h
      cases e with
      | conditional p t => simp at h
      | static t =>
        simp only [Option.map_eq_some'] at h
        obtain ⟨r0, hr0, rfl⟩ := h
        have hcnode : (findNode g c).isSome := hnodes c (List.mem_cons_self c r0)
        obtain ⟨step, hstep⟩ := Option.isSome_iff_exists.mp hcnode
        obtain ⟨fu, rfl⟩ : ∃ fu, fuel = fu + 1 := by
          cases fuel with
          | zero => simp at hfuel
          | succ fu => exact ⟨fu, rfl⟩
        by_cases htend : (t == ENDMARK) = true
        · have hr00 : r0 = [] := by
            cases f with
            | zero => simp [staticRoute] at hr0
            | succ f' =>
              rw [staticRoute, if_pos htend] at hr0
              cases hr0; rfl
          subst hr00
          refine ⟨g.applyUpdate s (step s), ?_⟩
          rw [runAux, hstep]
          simp [he, htend]
        · obtain ⟨s'', hrec⟩ := ih t r0 hr0 (by simpa using htend)
            (fun x hx => hnodes x (List.mem_cons_of_mem c hx))
            fu (g.applyUpdate s (step s)) (path ++ [c]) (count + 1)
            (by simp at hfuel ⊢; omega)
          refine ⟨s'', ?_⟩
          rw [runAux, hstep]
          simp only [he, htend, Bool.false_eq_true, if_false, ite_false]
          rw [hrec]
          simp [List.append_assoc]
          try omega

/-! ## Claims -/

/-- C1: For every run of the supervisor-worker graph in which the Iteration
Guard bound is 5 and the supervisor's decision is always a worker (a
non-finish decision), `invoke` fails with `IterationLimitExceeded` after
exactly 5 node executions - it never runs indefinitely (the engine is a
total function of its fuel) and never terminates by any other means. -/
theorem c1_supervisor_guard_five (supO resO codO wriO finO :
    SupWorker.SupervisorState → String) (task : String)
    (hw : ∀ s, pyLower (pyStrip (supO s)) ∈ SupWorker.WORKERS) :
    ∃ s' path, invoke (SupWorker.supGraph supO resO codO wriO finO) 5
        (SupWorker.initSup task) = .limitExceeded s' path 5 ∧ path.length = 5 := by
  obtain ⟨s', rest, heq, hlen⟩ := SupWorker.sup_guard_loop supO resO codO wriO finO hw 4
    (SupWorker.initSup task) [] 0 (by simp [SupWorker.initSup])
  refine ⟨s', rest, ?_, hlen⟩
  have hinv : invoke (SupWorker.supGraph supO resO codO wriO finO) 5 (SupWorker.initSup task)
      = runAux (SupWorker.supGraph supO resO codO wriO finO) 4 "supervisor"
        (SupWorker.initSup task) [] 0 := by
    simp [invoke, SupWorker.supGraph]
  rw [hinv, heq]
  simp [hlen]

/-- Witness for C1: a supervisor that always chooses the researcher. -/
theorem c1_supervisor_guard_five_witness :
    (∀ s : SupWorker.SupervisorState,
      pyLower (pyStrip ((fun _ => "researcher") s)) ∈ SupWorker.WORKERS) ∧
    (∃ s' path,
      invoke (SupWorker.supGraph (fun _ => "researcher") (fun _ => "r") (fun _ => "c")
        (fun _ => "w") (fun _ => "f")) 5 (SupWorker.initSup "t")
        = .limitExceeded s' path 5 ∧ path.length = 5) :=
  ⟨fun _ => by show pyLower (pyStrip "researcher") ∈ SupWorker.WORKERS; decide,
   c1_supervisor_guard_five (fun _ => "researcher") (fun _ => "r") (fun _ => "c")
     (fun _ => "w") (fun _ => "f") "t"
     (fun _ => by show pyLower (pyStrip "researcher") ∈ SupWorker.WORKERS; decide)⟩

/-- C2: When a conditional edge's predicate returns a routing key that is
absent from the routing table and the table has no `"default"` key, the run
fails with `RoutingError` naming the unresolved key (and the offending
node); the engine never routes such a key to some node. -/
theorem c2_routing_error {σ υ : Type} (g : Graph σ υ) (fuel : Nat) (cur : String)
    (s : σ) (path : List String) (count : Nat) (step : σ → υ) (pred : σ → String)
    (table : List (String × String))
    (hnode : findNode g cur = some step)
    (hedge : findEdge g cur = some (.conditional pred table))
    (hkey : lookupTable table (pred (g.applyUpdate s (step s))) = none)
    (hdef : lookupTable table "default" = none) :
    runAux g (fuel + 1) cur s path count =
      .routingFailed (pred (g.applyUpdate s (step s))) cur (g.applyUpdate s (step s))
        (path ++ [cur]) (count + 1) := by
  rw [runAux, hnode]
  simp [hedge, hkey, hdef]

/-- A one-node graph whose conditional edge's table resolves neither the
key the predicate produces nor a `"default"` key. -/
def routeDemoGraph : Graph CounterState CounterUpdate :=
  { nodes := [("a", step_one)]
    edges := [("a", .conditional (fun s => s.current_step) [("x", "a")])]
    applyUpdate := counterApply
    start := "a" }

/-- Witness for C2: after `step_one` the predicate returns `"one"`, which the
table `[("x", "a")]` does not resolve and no default exists, so the run
aborts with the routing failure naming `"one"`. -/
theorem c2_routing_error_witness :
    findNode routeDemoGraph "a" = some step_one ∧
    lookupTable [("x", "a")] "one" = none ∧
    lookupTable [("x", "a")] "default" = none ∧
    runAux routeDemoGraph 3 "a" initCounter [] 0 =
      .routingFailed "one" "a" ⟨"one", ["Completed step 1"], 10⟩ ["a"] 1 :=
  ⟨rfl, rfl, rfl, by
    have h := c2_routing_error routeDemoGraph 2 "a" initCounter [] 0 step_one
      (fun s => s.current_step) [("x", "a")] rfl rfl rfl rfl
    simpa [counterApply, step_one, initCounter, replaceReducer, addListReducer,
      addIntReducer] using h⟩

/-- C3 counterexample: invoking the three-node linear accumulating graph on
the initial state `{current_step: "start", history: [], total: 0}` yields
`total = 60`, but the history entries are `"Completed step 1"`,
`"Completed step 2"`, `"Completed step 3"` - not `"step1"`, `"step2"`,
`"step3"` as the claim states. -/
theorem c3_linear_run_counterexample :
    invoke counterGraph 25 initCounter =
      .finished ⟨"three", ["Completed step 1", "Completed step 2", "Completed step 3"], 60⟩
        ["step_one", "step_two", "step_three"] 3 ∧
    ("Completed step 1" :: "Completed step 2" :: "Completed step 3" :: [] ≠
      ["step1", "step2", "step3"]) := by
  constructor
  · rfl
  · decide

/-- C3 (amended): invoking the three-node linear accumulating graph on the
initial state `{history: [], total: 0}` (with `current_step: "start"`)
yields the final state `{current_step: "three", history:
["Completed step 1", "Completed step 2", "Completed step 3"], total: 60}`
along the path step_one, step_two, step_three. -/
theorem c3_linear_run :
    invoke counterGraph 25 initCounter =
      .finished ⟨"three", ["Completed step 1", "Completed step 2", "Completed step 3"], 60⟩
        ["step_one", "step_two", "step_three"] 3 := rfl

/-- C4: the "append" reducer applied to `["a"]` then `["b"]` starting from
the empty list yields `["a", "b"]`; the default "replace" reducer applied to
`x` then `y` yields `y` whatever was stored before; the "sum" reducer
applied to `10` then `20` then `30` starting from `0` yields `60`. -/
theorem c4_reducers :
    addListReducer (addListReducer [] ["a"]) ["b"] = ["a", "b"] ∧
    (∀ (α : Type) (v x y : α), replaceReducer (replaceReducer v x) y = y) ∧
    addIntReducer (addIntReducer (addIntReducer 0 10) 20) 30 = 60 :=
  ⟨rfl, fun _ _ _ _ => rfl, rfl⟩

lemma workerFor_ne_qc (intent : String) : Support.workerFor intent ≠ "quality_check" := by
  unfold Support.workerFor
  split_ifs <;> simp

lemma workerFor_ne_sup (intent : String) : Support.workerFor intent ≠ "supervisor" := by
  unfold Support.workerFor
  split_ifs <;> simp

/-- C5: In the customer-support graph, for every classification outcome
(`intentO`, `priorityO`) and all worker, quality-check and finalizer
outputs, the quality-review node executes during the run if and only if the
classified priority equals `"high"`; for every other priority value the run
proceeds directly to the finalize node without executing the review node. -/
theorem c5_quality_review_iff_high (intentO priorityO billR techR acctR genR finR msg
    cid : String) (qcO : Option (Bool × String)) :
    "quality_check" ∈ (invoke (Support.supportGraph intentO priorityO billR techR acctR
      genR qcO finR) 25 (Support.initSupport msg cid)).pathOf ↔ priorityO = "high" := by
  obtain ⟨hpath, hfin⟩ := finishedPath_eq _ _
    (Support.supportRun_finishedPath intentO priorityO billR techR acctR genR finR msg cid qcO)
  rw [hpath]
  by_cases hp : priorityO = "high"
  · simp [hp]
  · simp only [hp, if_false, ite_false]
    simp [hp, (workerFor_ne_qc intentO).symm]

/-- C6: Within every run, the engine's iteration counter increases in
lockstep with the node executions: the counter recorded in the outcome
equals the initial counter plus the number of nodes executed (one increment
per executed node), and is therefore monotonically non-decreasing over the
whole run. -/
theorem c6_counter_lockstep {σ υ : Type} (g : Graph σ υ) (fuel : Nat) (cur : String)
    (s : σ) (path : List String) (count : Nat) :
    ∃ executed : List String,
      (runAux g fuel cur s path count).pathOf = path ++ executed ∧
      (runAux g fuel cur s path count).countOf = count + executed.length ∧
      count ≤ (runAux g fuel cur s path count).countOf := by
  induction fuel generalizing cur s path count with
  | zero =>
    rw [runAux]
    cases hn : findNode g cur with
    | none =>
      exact ⟨[], by simp [RunResult.pathOf], by simp [RunResult.countOf],
        by simp [RunResult.countOf]⟩
    | some step =>
      exact ⟨[cur], by simp [RunResult.pathOf], by simp [RunResult.countOf],
        by simp [RunResult.countOf]⟩
  | succ fuel ih =>
    rw [runAux]
    cases hn : findNode g cur with
    | none =>
      exact ⟨[], by simp [RunResult.pathOf], by simp [RunResult.countOf],
        by simp [RunResult.countOf]⟩
    | some step =>
      cases he : findEdge g cur with
      | none =>
        exact ⟨[cur], by simp [RunResult.pathOf], by simp [RunResult.countOf],
          by simp [RunResult.countOf]⟩
      | some e =>
        cases e with
        | static t =>
          by_cases ht : (t == ENDMARK) = true
          · simp only [ht, if_true, ite_true]
            exact ⟨[cur], by simp [RunResult.pathOf], by simp [RunResult.countOf],
              by simp [RunResult.countOf]⟩
          · simp only [ht, Bool.false_eq_true, if_false, ite_false]
            obtain ⟨ex, h1, h2, h3⟩ := ih t (g.applyUpdate s (step s)) (path ++ [cur])
              (count + 1)
            exact ⟨cur :: ex, by rw [h1]; simp, by rw [h2]; simp; omega, by omega⟩
        | conditional pred table =>
          cases hk : lookupTable table (pred (g.applyUpdate s (step s))) with
          | some t =>
            simp only [hk]
            by_cases ht : (t == ENDMARK) = true
            · simp only [ht, if_true, ite_true]
              exact ⟨[cur], by simp [RunResult.pathOf], by simp [RunResult.countOf],
                by simp [RunResult.countOf]⟩
            · simp only [ht, Bool.false_eq_true, if_false, ite_false]
              obtain ⟨ex, h1, h2, h3⟩ := ih t (g.applyUpdate s (step s)) (path ++ [cur])
                (count + 1)
              exact ⟨cur :: ex, by rw [h1]; simp, by rw [h2]; simp; omega, by omega⟩
          | none =>
            simp only [hk]
            cases hd : lookupTable table "default" with
            | some t =>
              simp only [hd]
              by_cases ht : (t == ENDMARK) = true
              · simp only [ht, if_true, ite_true]
                exact ⟨[cur], by simp [RunResult.pathOf], by simp [RunResult.countOf],
                  by simp [RunResult.countOf]⟩
              · simp only [ht, Bool.false_eq_true, if_false, ite_false]
                obtain ⟨ex, h1, h2, h3⟩ := ih t (g.applyUpdate s (step s)) (path ++ [cur])
                  (count + 1)
                exact ⟨cur :: ex, by rw [h1]; simp, by rw [h2]; simp; omega, by omega⟩
            | none =>
              simp only [hd]
              exact ⟨[cur], by simp [RunResult.pathOf], by simp [RunResult.countOf],
                by simp [RunResult.countOf]⟩

/-- The engine's run is determined entirely by the step functions' outputs:
two graphs with the same edges, reducers and start node whose step
functions produce the same output on every snapshot yield identical runs. -/
lemma runAux_congr {σ υ : Type} (g₁ g₂ : Graph σ υ)
    (hedges : g₁.edges = g₂.edges) (happly : g₁.applyUpdate = g₂.applyUpdate)
    (hsteps : ∀ n s, (findNode g₁ n).map (fun f => f s) = (findNode g₂ n).map (fun f => f s)) :
    ∀ fuel cur s path count,
      runAux g₁ fuel cur s path count = runAux g₂ fuel cur s path count := by
  have hfe : ∀ n, findEdge g₁ n = findEdge g₂ n := by
    intro n; unfold findEdge; rw [hedges]
  intro fuel
  induction fuel with
  | zero =>
    intro cur s path count
    rw [runAux]; conv_rhs => rw [runAux]
    have hh := hsteps cur s
    cases h1 : findNode g₁ cur with
    | none =>
      rw [h1] at hh
      have h2 : findNode g₂ cur = none := Option.map_eq_none'.mp hh.symm
      simp only [h1, h2]
    | some f₁ =>
      rw [h1] at hh
      cases h2 : findNode g₂ cur with
      | none => rw [h2] at hh; simp at hh
      | some f₂ =>
        rw [h2] at hh
        simp only [Option.map_some'] at hh
        have hfs : f₁ s = f₂ s := Option.some.inj hh
        simp only [h1, h2, hfs, happly]
  | succ fuel ih =>
    intro cur s path count
    rw [runAux]; conv_rhs => rw [runAux]
    have hh := hsteps cur s
    cases h1 : findNode g₁ cur with
    | none =>
      rw [h1] at hh
      have h2 : findNode g₂ cur = none := Option.map_eq_none'.mp hh.symm
      simp only [h1, h2]
    | some f₁ =>
      rw [h1] at hh
      cases h2 : findNode g₂ cur with
      | none => rw [h2] at hh; simp at hh
      | some f₂ =>
        rw [h2] at hh
        simp only [Option.map_some'] at hh
        have hfs : f₁ s = f₂ s := Option.some.inj hh
        simp only [h1, h2, hfs, happly, hfe cur]
        cases he : findEdge g₂ cur with
        | none => try simp only [he]
        | some e =>
          try simp only [he]
          cases e with
          | static t =>
            by_cases ht : (t == ENDMARK) = true
            · simp only [ht, if_true, ite_true]
            · simp only [ht, Bool.false_eq_true, if_false, ite_false, ih]
          | conditional pred table =>
            cases hk : lookupTable table (pred (g₂.applyUpdate s (f₂ s))) with
            | some t =>
              try simp only [hk]
              by_cases ht : (t == ENDMARK) = true
              · simp only [ht, if_true, ite_true]
              · simp only [ht, Bool.false_eq_true, if_false, ite_false, ih]
            | none =>
              try simp only [hk]
              cases hd : lookupTable table "default" with
              | some t =>
                try simp only [hd]
                by_cases ht : (t == ENDMARK) = true
                · simp only [ht, if_true, ite_true]
                · simp only [ht, Bool.false_eq_true, if_false, ite_false, ih]
              | none => try simp only [hd]

/-- C7: For any two runs of `invoke` on graphs with the same structure that
start from equal initial states and in which each step function produces
the same outputs (hence the same sequence of partial updates along the
run), the resulting execution paths are identical and the resulting
outcomes are equal - the engine itself introduces no nondeterminism. -/
theorem c7_determinism {σ υ : Type} (g₁ g₂ : Graph σ υ) (maxSteps : Nat) (init₁ init₂ : σ)
    (hinit : init₁ = init₂)
    (hstart : g₁.start = g₂.start)
    (hedges : g₁.edges = g₂.edges)
    (happly : g₁.applyUpdate = g₂.applyUpdate)
    (hsteps : ∀ n s, (findNode g₁ n).map (fun f => f s) = (findNode g₂ n).map (fun f => f s)) :
    invoke g₁ maxSteps init₁ = invoke g₂ maxSteps init₂ ∧
    (invoke g₁ maxSteps init₁).pathOf = (invoke g₂ maxSteps init₂).pathOf := by
  subst hinit
  have key : invoke g₁ maxSteps init₁ = invoke g₂ maxSteps init₁ := by
    cases maxSteps with
    | zero => rfl
    | succ n =>
      show runAux g₁ n g₁.start init₁ [] 0 = runAux g₂ n g₂.start init₁ [] 0
      rw [hstart, runAux_congr g₁ g₂ hedges happly hsteps]
  exact ⟨key, by rw [key]⟩

/-- Witness for C7: two identical linear graphs yield identical runs. -/
theorem c7_determinism_witness :
    invoke counterGraph 25 initCounter = invoke counterGraph 25 initCounter ∧
    (invoke counterGraph 25 initCounter).pathOf = (invoke counterGraph 25 initCounter).pathOf :=
  c7_determinism counterGraph counterGraph 25 initCounter initCounter rfl rfl rfl rfl
    (fun _ _ => rfl)

/-- C8: For every graph built with only static edges (as every compiled
graph with a static route from the start node to the terminal marker whose
edges reference registered nodes, with the Iteration Guard roomy enough for
the route), `invoke` completes with the unique static route as its path:
it visits each node at most once (the route has no duplicates) and the
path length equals the number of nodes on the static route between the
start marker and the terminal marker. -/
theorem c8_static_graphs {σ υ : Type} (g : Graph σ υ) (f maxSteps : Nat) (r : List String)
    (init : σ)
    (_hstatic : ∀ p ∈ g.edges, ∃ t, p.2 = EdgeSpec.static t)
    (hroute : staticRoute g f g.start = some r)
    (hstart : g.start ≠ ENDMARK)
    (hnodes : ∀ x ∈ r, (findNode g x).isSome)
    (hbound : r.length < maxSteps) :
    (∃ s', invoke g maxSteps init = .finished s' r r.length) ∧ r.Nodup := by
  refine ⟨?_, staticRoute_nodup g f g.start r hroute⟩
  obtain ⟨m, rfl⟩ : ∃ m, maxSteps = m + 1 := by
    cases maxSteps with
    | zero => omega
    | succ m => exact ⟨m, rfl⟩
  obtain ⟨s', hrun⟩ := staticRoute_run g f g.start r hroute hstart hnodes m init [] 0
    (by omega)
  refine ⟨s', ?_⟩
  show runAux g m g.start init [] 0 = _
  rw [hrun]
  simp

/-- Witness for C8: the three-node multi-agent pipeline, a purely static
graph, runs researcher → analyst → writer exactly once each. -/
theorem c8_static_graphs_witness :
    (∀ p ∈ (multiAgentGraph "a" "b" "c").edges, ∃ t, p.2 = EdgeSpec.static t) ∧
    staticRoute (multiAgentGraph "a" "b" "c") 4 (multiAgentGraph "a" "b" "c").start
      = some ["researcher", "analyst", "writer"] ∧
    ((∃ s', invoke (multiAgentGraph "a" "b" "c") 25 (initMulti "q")
        = .finished s' ["researcher", "analyst", "writer"] 3) ∧
      ["researcher", "analyst", "writer"].Nodup) := by
  refine ⟨?_, rfl, ?_⟩
  · intro p hp
    simp [multiAgentGraph] at hp
    rcases hp with rfl | rfl | rfl <;> exact ⟨_, rfl⟩
  · exact c8_static_graphs (multiAgentGraph "a" "b" "c") 4 25
      ["researcher", "analyst", "writer"] (initMulti "q")
      (by
        intro p hp
        simp [multiAgentGraph] at hp
        rcases hp with rfl | rfl | rfl <;> exact ⟨_, rfl⟩)
      rfl (by decide)
      (by
        intro x hx
        simp at hx
        rcases hx with rfl | rfl | rfl <;> rfl)
      (by decide)

/-- C9: For every old dictionary `x` and incoming partial-update dictionary
`y`, the shallow-merge reducer used for the worker-results fields leaves
every key of `x` that is absent from `y` mapped to its previous value and
maps every key of `y` to `y`'s value; in particular a single worker's
one-entry update never erases another worker's stored result. -/
theorem c9_shallow_merge (x y : String → Option String) (k : String) :
    (y k = none → dictMerge x y k = x k) ∧
    (∀ v, y k = some v → dictMerge x y k = some v) ∧
    (∀ name resp j, j ≠ name → dictMerge x (singletonDict name resp) j = x j) := by
  refine ⟨?_, ?_, ?_⟩
  · intro h
    simp [dictMerge, h]
  · intro v h
    simp [dictMerge, h]
  · intro name resp j hj
    simp [dictMerge, singletonDict, hj]

/-- Witness for C9: merging the coder's result into a store holding the
researcher's result leaves the researcher's entry intact. -/
theorem c9_shallow_merge_witness :
    (singletonDict "coder" "c1") "researcher" = none ∧
    dictMerge (singletonDict "researcher" "r1") (singletonDict "coder" "c1") "researcher"
      = (singletonDict "researcher" "r1") "researcher" ∧
    ("researcher" : String) ≠ "coder" ∧
    dictMerge (singletonDict "researcher" "r1") (singletonDict "coder" "c1") "researcher"
      = (singletonDict "researcher" "r1") "researcher" :=
  ⟨rfl,
   (c9_shallow_merge (singletonDict "researcher" "r1") (singletonDict "coder" "c1")
     "researcher").1 rfl,
   by decide,
   (c9_shallow_merge (singletonDict "researcher" "r1") (singletonDict "coder" "c1")
     "researcher").2.2 "coder" "c1" "researcher" (by decide)⟩

/-- C10: In the customer-support graph, every state whose iteration field is
at least 2 makes the supervisor step return next action `"finalize"`, the
finalize node's edge leads to the terminal marker, and consequently every
run (for every classification outcome and every worker output) terminates
normally and executes the supervisor node at most three times. -/
theorem c10_support_termination :
    (∀ s : Support.SupportState, 2 ≤ s.iteration →
      (Support.supervisor s).next_action = some "finalize") ∧
    (∀ intentO priorityO billR techR acctR genR finR : String,
      ∀ qcO : Option (Bool × String),
      findEdge (Support.supportGraph intentO priorityO billR techR acctR genR qcO finR)
        "finalize" = some (.static ENDMARK)) ∧
    (∀ intentO priorityO billR techR acctR genR finR msg cid : String,
      ∀ qcO : Option (Bool × String),
      (invoke (Support.supportGraph intentO priorityO billR techR acctR genR qcO finR) 25
        (Support.initSupport msg cid)).isFinished = true ∧
      (invoke (Support.supportGraph intentO priorityO billR techR acctR genR qcO finR) 25
        (Support.initSupport msg cid)).pathOf.count "supervisor" ≤ 3) := by
  refine ⟨?_, ?_, ?_⟩
  · intro s h
    have h0 : ¬ (s.iteration = 0) := by omega
    have h1 : ¬ (s.iteration = 1) := by omega
    simp [Support.supervisor, h0, h1]
  · intro intentO priorityO billR techR acctR genR finR qcO
    rfl
  · intro intentO priorityO billR techR acctR genR finR msg cid qcO
    obtain ⟨hpath, hfin⟩ := finishedPath_eq _ _
      (Support.supportRun_finishedPath intentO priorityO billR techR acctR genR finR msg
        cid qcO)
    refine ⟨hfin, ?_⟩
    rw [hpath]
    have hw := workerFor_ne_sup intentO
    have hw' := Ne.symm hw
    by_cases hp : priorityO = "high" <;> simp [hp, List.count_cons, hw, hw']

/-- A support state whose iteration counter already reached 2. -/
def testSupportState : Support.SupportState :=
  { Support.initSupport "m" "c" with iteration := 2 }

/-- Witness for C10: at iteration 2 the supervisor finalizes, and a concrete
high-priority billing run terminates with three supervisor executions. -/
theorem c10_support_termination_witness :
    (2 : Int) ≤ testSupportState.iteration ∧
    (Support.supervisor testSupportState).next_action = some "finalize" ∧
    (invoke (Support.supportGraph "billing" "high" "b" "t" "a" "g" none "f") 25
      (Support.initSupport "m" "c")).isFinished = true ∧
    (invoke (Support.supportGraph "billing" "high" "b" "t" "a" "g" none "f") 25
      (Support.initSupport "m" "c")).pathOf.count "supervisor" ≤ 3 :=
  ⟨by decide,
   c10_support_termination.1 testSupportState (by decide),
   (c10_support_termination.2.2 "billing" "high" "b" "t" "a" "g" "f" "m" "c" none).1,
   (c10_support_termination.2.2 "billing" "high" "b" "t" "a" "g" "f" "m" "c" none).2⟩
